import Mathlib

/-!
# fleetlock: node matching and drain / uncordon orchestration

A shallow embedding of `internal/drain.go`:

* `Server.matchNode`      (drain.go, lines 100-125)
* `Server.findChildNodes` (drain.go, lines 87-96)
* `Server.DrainNode`      (drain.go, lines 16-45)
* `Server.UncordonNode`   (drain.go, lines 49-82)

The Kubernetes client (`kubeClient.CoreV1().Nodes().List`), the drainer
(`drainer.Drain`, `drainer.Uncordon`) and the identity function `ZincatiID`
are collaborators whose code is outside `drain.go`; they are taken as
parameters.  The cluster is an arbitrary state type `σ` that every
collaborator call may read and change, so the theorems hold for every
behaviour of the collaborators, including answers that change from one call
to the next.  The `ctx` argument is handed unchanged to every collaborator
call, so its effect is part of the collaborators' behaviour.  Every
collaborator call and every log record is appended, with its outcome, to a
trace, which is what the statements about "the calls issued" speak of.
-/

namespace Fleetlock

/-! ## Data model -/

/-- A Go `error` value that is not nil, identified by its message. -/
structure Err where
  msg : String
deriving DecidableEq, Repr

/-- The fields of `v1.Node` that `drain.go` reads: `GetName()`,
`Status.NodeInfo.MachineID`, `Status.NodeInfo.SystemUUID`, and the labels
(read by the cluster API when it answers a label selector). -/
structure Node where
  Name : String
  MachineID : String
  SystemUUID : String
  Labels : List (String × String)
deriving DecidableEq, Repr

/-- The one field of `metav1.ListOptions` that `drain.go` sets.  The zero value
`metav1.ListOptions{}` has the empty selector. -/
structure ListOptions where
  LabelSelector : String
deriving DecidableEq, Repr

/-- Outcome of a node list: the items, or the error. -/
inductive ListResult where
  | ok (items : List Node)
  | error (err : Err)
deriving DecidableEq, Repr

/-- Outcome of `matchNode`: the node, or the error. -/
inductive MatchResult where
  | ok (node : Node)
  | error (err : Err)
deriving DecidableEq, Repr

/-- The logrus levels used in `drain.go`. -/
inductive Level where
  | info
  | warning
deriving DecidableEq, Repr

/-- One observable action of the server, with its outcome. -/
inductive Event where
  | list (opts : ListOptions) (res : ListResult)
  | drain (name : String) (res : Option Err)
  | uncordon (name : String) (res : Option Err)
  | log (lvl : Level) (message : String) (fields : List (String × String))
deriving DecidableEq, Repr

/-- The receiver `s *Server` together with the collaborators it reaches:
`list` is `s.kubeClient.CoreV1().Nodes().List`, `Drain` and `Uncordon` are the
methods of the drainer built by `drain.New`, `ZincatiID` is the package
function of that name (it returns a string and an error, `none` being nil). -/
structure Server (σ : Type) where
  list : ListOptions → σ → ListResult × σ
  Drain : String → σ → Option Err × σ
  Uncordon : String → σ → Option Err × σ
  ZincatiID : String → String × Option Err
  parentNodeLabel : String

/-- The cluster state and the trace of actions so far. -/
structure World (σ : Type) where
  st : σ
  trace : List Event
deriving DecidableEq

variable {σ : Type}

/-! ## Collaborator calls, recorded in the trace -/

/-- Call `s.kubeClient.CoreV1().Nodes().List(ctx, opts)`. -/
def callList (s : Server σ) (opts : ListOptions) (w : World σ) : ListResult × World σ :=
  let r := s.list opts w.st
  (r.1, ⟨r.2, w.trace ++ [Event.list opts r.1]⟩)

/-- Call `drainer.Drain(ctx, name)`. -/
def callDrain (s : Server σ) (name : String) (w : World σ) : Option Err × World σ :=
  let r := s.Drain name w.st
  (r.1, ⟨r.2, w.trace ++ [Event.drain name r.1]⟩)

/-- Call `drainer.Uncordon(ctx, name)`. -/
def callUncordon (s : Server σ) (name : String) (w : World σ) : Option Err × World σ :=
  let r := s.Uncordon name w.st
  (r.1, ⟨r.2, w.trace ++ [Event.uncordon name r.1]⟩)

/-- Emit one log record through `s.log`. -/
def logAt (lvl : Level) (message : String) (fields : List (String × String))
    (w : World σ) : World σ :=
  ⟨w.st, w.trace ++ [Event.log lvl message fields]⟩

/-! ## The functions of `drain.go` -/

/-- `findChildNodes` (drain.go 87-96): one list with the selector
`fmt.Sprintf("%s=%s", s.parentNodeLabel, parentName)`; the error or the items
are returned as they come. -/
def findChildNodes (s : Server σ) (parentName : String) (w : World σ) :
    ListResult × World σ :=
  let selector := s.parentNodeLabel ++ "=" ++ parentName
  match callList s ⟨selector⟩ w with
  | (ListResult.error err, w1) => (ListResult.error err, w1)
  | (ListResult.ok items, w1) => (ListResult.ok items, w1)

/-- The `for _, node := range nodes.Items` loop of `matchNode` (drain.go
112-121): the first node with `err == nil && id == zincatiID`. -/
def matchLoop (s : Server σ) (id : String) : List Node → Option Node
  | [] => none
  | node :: rest =>
    let r := s.ZincatiID node.MachineID
    if r.2 = none ∧ id = r.1 then some node else matchLoop s id rest

/-- `matchNode` (drain.go 100-125). -/
def matchNode (s : Server σ) (id : String) (w : World σ) : MatchResult × World σ :=
  let fields := [("id", id)]
  let w0 := logAt Level.info "fleetlock: match Zincati request to Kubernetes node" fields w
  match callList s ⟨""⟩ w0 with
  | (ListResult.error err, w1) =>
    (MatchResult.error err,
      logAt Level.info ("fleetlock: nodes list error: " ++ err.msg) fields w1)
  | (ListResult.ok items, w1) =>
    match matchLoop s id items with
    | some node =>
      (MatchResult.ok node,
        logAt Level.info "fleetlock: Zincati request matches Kubernetes node"
          (fields ++ [("node", node.Name), ("machineID", node.MachineID),
            ("systemUUID", node.SystemUUID)]) w1)
    | none =>
      (MatchResult.error ⟨"fleetlock: Zincati request matches no Kubernetes Nodes"⟩,
        logAt Level.info "fleetlock: Zincati request matches no Kubernetes Nodes" fields w1)

/-- The `for _, child := range children` loop of `DrainNode` (drain.go 33-41):
a failing child drain is logged as a warning and the loop goes on. -/
def drainChildren (s : Server σ) (node : Node) : List Node → World σ → World σ
  | [], w => w
  | child :: rest, w =>
    let w1 := logAt Level.info "fleetlock: draining child node"
      [("node", node.Name), ("child", child.Name)] w
    match callDrain s child.Name w1 with
    | (some err, w2) =>
      drainChildren s node rest
        (logAt Level.warning
          ("fleetlock: error draining child node " ++ child.Name ++ ": " ++ err.msg) [] w2)
    | (none, w2) => drainChildren s node rest w2

/-- `DrainNode` (drain.go 16-45); `none` is a nil error. -/
def DrainNode (s : Server σ) (id : String) (w : World σ) : Option Err × World σ :=
  match matchNode s id w with
  | (MatchResult.error err, w1) => (some err, w1)
  | (MatchResult.ok node, w1) =>
    if s.parentNodeLabel ≠ "" then
      match findChildNodes s node.Name w1 with
      | (ListResult.error err, w2) => (some err, w2)
      | (ListResult.ok children, w2) =>
        callDrain s node.Name (drainChildren s node children w2)
    else
      callDrain s node.Name w1

/-- The `for _, child := range children` loop of `UncordonNode` (drain.go
70-78). -/
def uncordonChildren (s : Server σ) (node : Node) : List Node → World σ → World σ
  | [], w => w
  | child :: rest, w =>
    let w1 := logAt Level.info "fleetlock: uncordoning child node"
      [("node", node.Name), ("child", child.Name)] w
    match callUncordon s child.Name w1 with
    | (some err, w2) =>
      uncordonChildren s node rest
        (logAt Level.warning
          ("fleetlock: error uncordoning child node " ++ child.Name ++ ": " ++ err.msg) [] w2)
    | (none, w2) => uncordonChildren s node rest w2

/-- `UncordonNode` (drain.go 49-82); `none` is a nil error. -/
def UncordonNode (s : Server σ) (id : String) (w : World σ) : Option Err × World σ :=
  match matchNode s id w with
  | (MatchResult.error err, w1) => (some err, w1)
  | (MatchResult.ok node, w1) =>
    match callUncordon s node.Name w1 with
    | (some err, w2) => (some err, w2)
    | (none, w2) =>
      if s.parentNodeLabel ≠ "" then
        match findChildNodes s node.Name w2 with
        | (ListResult.error err, w3) => (some err, w3)
        | (ListResult.ok children, w3) => (none, uncordonChildren s node children w3)
      else
        (none, w2)

/-! ## Reading a trace -/

/-- The node names of the drain calls in a trace, in order. -/
def drainCalls : List Event → List String
  | [] => []
  | Event.drain name _ :: rest => name :: drainCalls rest
  | _ :: rest => drainCalls rest

/-- The node names of the uncordon calls in a trace, in order. -/
def uncordonCalls : List Event → List String
  | [] => []
  | Event.uncordon name _ :: rest => name :: uncordonCalls rest
  | _ :: rest => uncordonCalls rest

/-- The options of the list calls in a trace, in order. -/
def listCalls : List Event → List ListOptions
  | [] => []
  | Event.list opts _ :: rest => opts :: listCalls rest
  | _ :: rest => listCalls rest

/-! ## A concrete cluster for the worked scenarios -/

/-- The parent of the spec's scenario. -/
def nodeA : Node := ⟨"node-a", "m1", "u1", []⟩

/-- The child of the spec's scenario, with an unrelated label besides. -/
def nodeB : Node := ⟨"node-b", "m2", "u2", [("zone", "node-a"), ("parent", "node-a")]⟩

/-- A second child, whose drain and uncordon fail in the scenarios. -/
def nodeC : Node := ⟨"node-c", "m3", "u3", [("parent", "node-a"), ("zone", "z1")]⟩

/-- A node unrelated to the parent: another parent value, and the parent's name
only under another key. -/
def nodeD : Node := ⟨"node-d", "m1", "u4", [("parent", "node-b"), ("zone", "node-a")]⟩

/-- A node whose machine id the identity function rejects. -/
def nodeE : Node := ⟨"node-e", "bad", "u5", []⟩

/-- An identity function for the scenarios: it fails on `"bad"` while returning
the string `"id-m1"` beside the error, and otherwise prefixes `"id-"`. -/
def exZincatiID (machineID : String) : String × Option Err :=
  if machineID = "bad" then ("id-m1", some ⟨"bad machine id"⟩) else ("id-" ++ machineID, none)

/-- Does the node carry a label that renders as the selector `key=value`? -/
def selectorMatches (selector : String) (n : Node) : Bool :=
  n.Labels.any (fun kv => decide (kv.1 ++ "=" ++ kv.2 = selector))

/-- A cluster API over a fixed inventory: the empty selector lists everything,
a selector `key=value` lists the nodes labelled so.  The state counts the
calls made. -/
def exList (inventory : List Node) (opts : ListOptions) (n : Nat) : ListResult × Nat :=
  if opts.LabelSelector = "" then (ListResult.ok inventory, n + 1)
  else (ListResult.ok (inventory.filter (selectorMatches opts.LabelSelector)), n + 1)

/-- A drainer (either method) that fails on the names in `failing`. -/
def exDrainer (failing : List String) (name : String) (n : Nat) : Option Err × Nat :=
  if name ∈ failing then (some ⟨"cannot reach " ++ name⟩, n + 1) else (none, n + 1)

/-- The inventory of the scenarios, in list order: `nodeE` fails the identity
computation, `nodeA` and `nodeD` both compute to `"id-m1"`. -/
def exInventory : List Node := [nodeE, nodeA, nodeB, nodeC, nodeD]

/-- A server over `inventory` whose drains and uncordons fail on `failing`. -/
def exServer (inventory : List Node) (failing : List String) (key : String) : Server Nat :=
  ⟨exList inventory, exDrainer failing, exDrainer failing, exZincatiID, key⟩

/-- A cluster API whose every list fails. -/
def failList (_opts : ListOptions) (n : Nat) : ListResult × Nat :=
  (ListResult.error ⟨"api unavailable"⟩, n + 1)

/-- A server whose node lists all fail. -/
def exServerListFail (key : String) : Server Nat :=
  ⟨failList, exDrainer [], exDrainer [], exZincatiID, key⟩

/-- A cluster API that answers the unfiltered list but fails every label query. -/
def failLabelList (inventory : List Node) (opts : ListOptions) (n : Nat) : ListResult × Nat :=
  if opts.LabelSelector = "" then (ListResult.ok inventory, n + 1)
  else (ListResult.error ⟨"label query failed"⟩, n + 1)

/-- A server over `inventory` whose label queries fail, and whose drains and
uncordons fail on `failing`. -/
def exServerLabelFail (inventory : List Node) (failing : List String) (key : String) :
    Server Nat :=
  ⟨failLabelList inventory, exDrainer failing, exDrainer failing, exZincatiID, key⟩

/-- A cluster API whose label queries fail until the first uncordon has been
made: the state is the number of uncordon calls so far. -/
def lateLabelList (inventory : List Node) (opts : ListOptions) (n : Nat) : ListResult × Nat :=
  if opts.LabelSelector = "" then (ListResult.ok inventory, n)
  else if n = 0 then (ListResult.error ⟨"label query failed"⟩, n)
  else (ListResult.ok (inventory.filter (selectorMatches opts.LabelSelector)), n)

/-- A server over `inventory` on which a label query succeeds only after an
uncordon: no drain run ever resolves children from the initial state. -/
def exServerLateLabels (inventory : List Node) (key : String) : Server Nat :=
  ⟨lateLabelList inventory, fun _ n => (none, n), fun _ n => (none, n + 1), exZincatiID, key⟩

/-- The initial world of the scenarios. -/
def w0 : World Nat := ⟨0, []⟩

/-! ## Trace lemmas -/

theorem drainCalls_append (a b : List Event) :
    drainCalls (a ++ b) = drainCalls a ++ drainCalls b := by
  induction a with
  | nil => rfl
  | cons e rest ih => cases e <;> simp [drainCalls, ih]

theorem uncordonCalls_append (a b : List Event) :
    uncordonCalls (a ++ b) = uncordonCalls a ++ uncordonCalls b := by
  induction a with
  | nil => rfl
  | cons e rest ih => cases e <;> simp [uncordonCalls, ih]

theorem listCalls_append (a b : List Event) :
    listCalls (a ++ b) = listCalls a ++ listCalls b := by
  induction a with
  | nil => rfl
  | cons e rest ih => cases e <;> simp [listCalls, ih]

/-- What `matchNode` appends to the trace: its opening log record, the one
unfiltered list with its outcome, and one closing log record. -/
theorem matchNode_trace (s : Server σ) (id : String) (w : World σ) :
    ∃ m1 f1 m2 f2, (matchNode s id w).2.trace =
      w.trace ++ [Event.log Level.info m1 f1, Event.list ⟨""⟩ (s.list ⟨""⟩ w.st).1,
        Event.log Level.info m2 f2] := by
  unfold matchNode
  simp only [callList, logAt]
  cases hl : (s.list ⟨""⟩ w.st).1 with
  | error err =>
    exact ⟨"fleetlock: match Zincati request to Kubernetes node", [("id", id)],
      "fleetlock: nodes list error: " ++ err.msg, [("id", id)], by simp⟩
  | ok items =>
    cases hm : matchLoop s id items with
    | none =>
      exact ⟨"fleetlock: match Zincati request to Kubernetes node", [("id", id)],
        "fleetlock: Zincati request matches no Kubernetes Nodes", [("id", id)], by simp [hm]⟩
    | some node =>
      exact ⟨"fleetlock: match Zincati request to Kubernetes node", [("id", id)],
        "fleetlock: Zincati request matches Kubernetes node",
        [("id", id), ("node", node.Name), ("machineID", node.MachineID),
          ("systemUUID", node.SystemUUID)], by simp [hm]⟩

theorem matchNode_drainCalls (s : Server σ) (id : String) (w : World σ) :
    drainCalls (matchNode s id w).2.trace = drainCalls w.trace := by
  obtain ⟨m1, f1, m2, f2, h⟩ := matchNode_trace s id w
  rw [h, drainCalls_append]
  simp [drainCalls]

theorem matchNode_uncordonCalls (s : Server σ) (id : String) (w : World σ) :
    uncordonCalls (matchNode s id w).2.trace = uncordonCalls w.trace := by
  obtain ⟨m1, f1, m2, f2, h⟩ := matchNode_trace s id w
  rw [h, uncordonCalls_append]
  simp [uncordonCalls]

theorem matchNode_listCalls (s : Server σ) (id : String) (w : World σ) :
    listCalls (matchNode s id w).2.trace = listCalls w.trace ++ [⟨""⟩] := by
  obtain ⟨m1, f1, m2, f2, h⟩ := matchNode_trace s id w
  rw [h, listCalls_append]
  simp [listCalls]

/-- The result of `findChildNodes` is the list outcome, and the trace grows by
that one list call. -/
theorem findChildNodes_eq (s : Server σ) (parentName : String) (w : World σ) :
    findChildNodes s parentName w =
      ((s.list ⟨s.parentNodeLabel ++ "=" ++ parentName⟩ w.st).1,
        ⟨(s.list ⟨s.parentNodeLabel ++ "=" ++ parentName⟩ w.st).2,
          w.trace ++ [Event.list ⟨s.parentNodeLabel ++ "=" ++ parentName⟩
            (s.list ⟨s.parentNodeLabel ++ "=" ++ parentName⟩ w.st).1]⟩) := by
  unfold findChildNodes
  simp only [callList]
  cases h : (s.list ⟨s.parentNodeLabel ++ "=" ++ parentName⟩ w.st).1 <;> rfl

theorem drainChildren_drainCalls (s : Server σ) (node : Node) (children : List Node)
    (w : World σ) :
    drainCalls (drainChildren s node children w).trace =
      drainCalls w.trace ++ children.map Node.Name := by
  induction children generalizing w with
  | nil => simp [drainChildren]
  | cons child rest ih =>
    unfold drainChildren
    simp only [callDrain, logAt]
    cases h : (s.Drain child.Name w.st).1 with
    | none => simp [ih, drainCalls_append, drainCalls]
    | some err => simp [ih, drainCalls_append, drainCalls]

theorem drainChildren_extends (s : Server σ) (node : Node) (children : List Node)
    (w : World σ) : ∃ mid, (drainChildren s node children w).trace = w.trace ++ mid := by
  induction children generalizing w with
  | nil => exact ⟨[], by simp [drainChildren]⟩
  | cons child rest ih =>
    unfold drainChildren
    simp only [callDrain, logAt]
    cases h : (s.Drain child.Name w.st).1 with
    | none =>
      simp only
      obtain ⟨mid, hmid⟩ := ih ⟨(s.Drain child.Name w.st).2,
        w.trace ++ [Event.log Level.info "fleetlock: draining child node"
          [("node", node.Name), ("child", child.Name)]] ++ [Event.drain child.Name none]⟩
      exact ⟨[Event.log Level.info "fleetlock: draining child node"
          [("node", node.Name), ("child", child.Name)], Event.drain child.Name none] ++ mid,
        by rw [hmid]; simp⟩
    | some err =>
      simp only
      obtain ⟨mid, hmid⟩ := ih ⟨(s.Drain child.Name w.st).2,
        w.trace ++ [Event.log Level.info "fleetlock: draining child node"
          [("node", node.Name), ("child", child.Name)]] ++ [Event.drain child.Name (some err)] ++
          [Event.log Level.warning
            ("fleetlock: error draining child node " ++ child.Name ++ ": " ++ err.msg) []]⟩
      exact ⟨[Event.log Level.info "fleetlock: draining child node"
          [("node", node.Name), ("child", child.Name)], Event.drain child.Name (some err),
          Event.log Level.warning
            ("fleetlock: error draining child node " ++ child.Name ++ ": " ++ err.msg) []] ++ mid,
        by rw [hmid]; simp⟩

theorem uncordonChildren_uncordonCalls (s : Server σ) (node : Node) (children : List Node)
    (w : World σ) :
    uncordonCalls (uncordonChildren s node children w).trace =
      uncordonCalls w.trace ++ children.map Node.Name := by
  induction children generalizing w with
  | nil => simp [uncordonChildren]
  | cons child rest ih =>
    unfold uncordonChildren
    simp only [callUncordon, logAt]
    cases h : (s.Uncordon child.Name w.st).1 with
    | none => simp [ih, uncordonCalls_append, uncordonCalls]
    | some err => simp [ih, uncordonCalls_append, uncordonCalls]

theorem findChildNodes_drainCalls (s : Server σ) (parentName : String) (w : World σ) :
    drainCalls (findChildNodes s parentName w).2.trace = drainCalls w.trace := by
  rw [findChildNodes_eq]
  simp [drainCalls_append, drainCalls]

theorem findChildNodes_uncordonCalls (s : Server σ) (parentName : String) (w : World σ) :
    uncordonCalls (findChildNodes s parentName w).2.trace = uncordonCalls w.trace := by
  rw [findChildNodes_eq]
  simp [uncordonCalls_append, uncordonCalls]

/-! ## Drain orchestration -/

/-- C1: when `matchNode` succeeds and (with a parent label key configured) the
children are resolved, `DrainNode` is exactly the drain call on the matched node,
made in some world `wp` reached from the world after the match: its result is
what the drainer answers for the matched node there (nil or the error), whatever
the drainer answered for the children, and that call is the last action. -/
theorem DrainNode_result_is_parent_drain (s : Server σ) (id : String) (w : World σ)
    (node : Node) (w1 : World σ)
    (hm : matchNode s id w = (MatchResult.ok node, w1))
    (hc : s.parentNodeLabel ≠ "" →
      ∃ children w2, findChildNodes s node.Name w1 = (ListResult.ok children, w2)) :
    ∃ wp mid, wp.trace = w1.trace ++ mid ∧
      DrainNode s id w = callDrain s node.Name wp ∧
      (DrainNode s id w).1 = (s.Drain node.Name wp.st).1 ∧
      (DrainNode s id w).2.trace =
        wp.trace ++ [Event.drain node.Name (DrainNode s id w).1] := by
  by_cases hk : s.parentNodeLabel = ""
  · refine ⟨w1, [], by simp, ?_⟩
    have h : DrainNode s id w = callDrain s node.Name w1 := by
      unfold DrainNode
      rw [hm]
      simp [hk]
    rw [h]
    exact ⟨rfl, rfl, rfl⟩
  · obtain ⟨children, w2, hf⟩ := hc hk
    obtain ⟨mid, hmid⟩ := drainChildren_extends s node children w2
    have hw2 : w2.trace = w1.trace ++
        [Event.list ⟨s.parentNodeLabel ++ "=" ++ node.Name⟩
          (s.list ⟨s.parentNodeLabel ++ "=" ++ node.Name⟩ w1.st).1] := by
      have h := findChildNodes_eq s node.Name w1
      rw [hf] at h
      exact (congrArg (fun r => r.2.trace) h)
    refine ⟨drainChildren s node children w2,
      [Event.list ⟨s.parentNodeLabel ++ "=" ++ node.Name⟩
        (s.list ⟨s.parentNodeLabel ++ "=" ++ node.Name⟩ w1.st).1] ++ mid, ?_, ?_⟩
    · rw [hmid, hw2, List.append_assoc]
    · have h : DrainNode s id w = callDrain s node.Name (drainChildren s node children w2) := by
        unfold DrainNode
        rw [hm]
        simp only [hk, ne_eq, not_false_eq_true, if_true]
        rw [hf]
      rw [h]
      exact ⟨rfl, rfl, rfl⟩

/-- C2: with a parent label key configured, a successful match and a successful
child resolution, the drain calls `DrainNode` issues are the children's names in
the order the label query returned them, one call per returned child, followed
by the matched node's name, for every behaviour of the drainer. -/
theorem DrainNode_drains_children_then_parent (s : Server σ) (id : String) (w : World σ)
    (node : Node) (w1 : World σ) (children : List Node) (w2 : World σ)
    (hk : s.parentNodeLabel ≠ "")
    (hm : matchNode s id w = (MatchResult.ok node, w1))
    (hc : findChildNodes s node.Name w1 = (ListResult.ok children, w2)) :
    drainCalls (DrainNode s id w).2.trace =
      drainCalls w.trace ++ (children.map Node.Name ++ [node.Name]) := by
  have h1 : drainCalls w1.trace = drainCalls w.trace := by
    have h := matchNode_drainCalls s id w
    rw [hm] at h
    exact h
  have h2 : drainCalls w2.trace = drainCalls w1.trace := by
    have h := findChildNodes_drainCalls s node.Name w1
    rw [hc] at h
    exact h
  unfold DrainNode
  rw [hm]
  simp only [hk, ne_eq, not_false_eq_true, if_true]
  rw [hc]
  simp only [callDrain, drainCalls_append, drainChildren_drainCalls, h2, h1]
  simp [drainCalls]

/-! ## Uncordon orchestration -/

/-- C3: when `matchNode` succeeds and the uncordon of the matched node fails,
`UncordonNode` returns that error; the uncordon of the matched node is the only
action after the match, so the only list call is the unfiltered one of
`matchNode` and no child is uncordoned, whatever the parent label key. -/
theorem UncordonNode_parent_failure (s : Server σ) (id : String) (w : World σ)
    (node : Node) (w1 : World σ) (err : Err)
    (hm : matchNode s id w = (MatchResult.ok node, w1))
    (hu : (s.Uncordon node.Name w1.st).1 = some err) :
    (UncordonNode s id w).1 = some err ∧
      (UncordonNode s id w).2.trace = w1.trace ++ [Event.uncordon node.Name (some err)] ∧
      uncordonCalls (UncordonNode s id w).2.trace = uncordonCalls w.trace ++ [node.Name] ∧
      listCalls (UncordonNode s id w).2.trace = listCalls w.trace ++ [⟨""⟩] := by
  have h1 : uncordonCalls w1.trace = uncordonCalls w.trace := by
    have h := matchNode_uncordonCalls s id w
    rw [hm] at h
    exact h
  have h2 : listCalls w1.trace = listCalls w.trace ++ [⟨""⟩] := by
    have h := matchNode_listCalls s id w
    rw [hm] at h
    exact h
  have h : UncordonNode s id w =
      (some err, ⟨(s.Uncordon node.Name w1.st).2,
        w1.trace ++ [Event.uncordon node.Name (some err)]⟩) := by
    unfold UncordonNode
    rw [hm]
    simp only [callUncordon, hu]
  rw [h]
  refine ⟨rfl, rfl, ?_, ?_⟩
  · simp [uncordonCalls_append, uncordonCalls, h1]
  · simp [listCalls_append, listCalls, h2]

/-- C4: with a parent label key configured, every `UncordonNode` run in which the
match, the uncordon of the matched node and the child resolution succeed returns
nil, and its uncordon calls are the matched node first, then the children in the
order the label query returned them, one call per returned child, for every
behaviour of the drainer on the children.  Separately, and under its own
premises alone, every `DrainNode` run in which the match and the child
resolution succeed issues its drain calls in the order children, then the
matched node: for the same node and children the two sequences are
`parent :: children` and `children ++ [parent]`. -/
theorem UncordonNode_parent_then_children (s : Server σ) (id : String)
    (hk : s.parentNodeLabel ≠ "") :
    (∀ (node : Node) (children : List Node) (w w1 w2 w3 : World σ),
      matchNode s id w = (MatchResult.ok node, w1) →
      callUncordon s node.Name w1 = (none, w2) →
      findChildNodes s node.Name w2 = (ListResult.ok children, w3) →
      (UncordonNode s id w).1 = none ∧
        uncordonCalls (UncordonNode s id w).2.trace =
          uncordonCalls w.trace ++ node.Name :: children.map Node.Name) ∧
    (∀ (node : Node) (children : List Node) (v v1 v2 : World σ),
      matchNode s id v = (MatchResult.ok node, v1) →
      findChildNodes s node.Name v1 = (ListResult.ok children, v2) →
      drainCalls (DrainNode s id v).2.trace =
        drainCalls v.trace ++ (children.map Node.Name ++ [node.Name])) := by
  constructor
  · intro node children w w1 w2 w3 hm hu hc
    have h1 : uncordonCalls w1.trace = uncordonCalls w.trace := by
      have h := matchNode_uncordonCalls s id w
      rw [hm] at h
      exact h
    have h2 : uncordonCalls w2.trace = uncordonCalls w1.trace ++ [node.Name] := by
      have h := congrArg (fun r => uncordonCalls r.2.trace) hu
      simp only [callUncordon, uncordonCalls_append] at h
      rw [← h]
      cases (s.Uncordon node.Name w1.st).1 <;> simp [uncordonCalls]
    have h3 : uncordonCalls w3.trace = uncordonCalls w2.trace := by
      have h := findChildNodes_uncordonCalls s node.Name w2
      rw [hc] at h
      exact h
    have h : UncordonNode s id w = (none, uncordonChildren s node children w3) := by
      unfold UncordonNode
      rw [hm]
      simp only [hu, hk, ne_eq, not_false_eq_true, if_true]
      rw [hc]
    rw [h]
    refine ⟨rfl, ?_⟩
    simp [uncordonChildren_uncordonCalls, h3, h2, h1]
  · intro node children v v1 v2 hm hc
    have g1 : drainCalls v1.trace = drainCalls v.trace := by
      have h := matchNode_drainCalls s id v
      rw [hm] at h
      exact h
    have g2 : drainCalls v2.trace = drainCalls v1.trace := by
      have h := findChildNodes_drainCalls s node.Name v1
      rw [hc] at h
      exact h
    have g : DrainNode s id v = callDrain s node.Name (drainChildren s node children v2) := by
      unfold DrainNode
      rw [hm]
      simp only [hk, ne_eq, not_false_eq_true, if_true]
      rw [hc]
    rw [g]
    simp only [callDrain, drainCalls_append, drainChildren_drainCalls, g2, g1]
    simp [drainCalls]

/-! ## Identity matching -/

theorem matchLoop_first (s : Server σ) (id : String) (items : List Node)
    (hex : ∃ n ∈ items, s.ZincatiID n.MachineID = (id, none)) :
    ∃ pre node post, items = pre ++ node :: post ∧
      (∀ m ∈ pre, s.ZincatiID m.MachineID ≠ (id, none)) ∧
      s.ZincatiID node.MachineID = (id, none) ∧
      matchLoop s id items = some node := by
  induction items with
  | nil => simp at hex
  | cons x rest ih =>
    by_cases hx : s.ZincatiID x.MachineID = (id, none)
    · refine ⟨[], x, rest, rfl, by simp, hx, ?_⟩
      simp [matchLoop, hx]
    · have hex' : ∃ n ∈ rest, s.ZincatiID n.MachineID = (id, none) := by
        obtain ⟨n, hn, hz⟩ := hex
        rcases List.mem_cons.mp hn with rfl | hn'
        · exact absurd hz hx
        · exact ⟨n, hn', hz⟩
      obtain ⟨pre, node, post, hsplit, hpre, hnode, hloop⟩ := ih hex'
      refine ⟨x :: pre, node, post, by simp [hsplit], ?_, hnode, ?_⟩
      · intro m hm
        rcases List.mem_cons.mp hm with rfl | hm'
        · exact hx
        · exact hpre m hm'
      · have hcond : ¬ ((s.ZincatiID x.MachineID).2 = none ∧ id = (s.ZincatiID x.MachineID).1) := by
          rintro ⟨h2, h1⟩
          exact hx (Prod.ext h1.symm h2)
        simp only [matchLoop, hcond, if_false]
        exact hloop

theorem matchLoop_none (s : Server σ) (id : String) (items : List Node)
    (hno : ∀ n ∈ items, s.ZincatiID n.MachineID ≠ (id, none)) :
    matchLoop s id items = none := by
  induction items with
  | nil => rfl
  | cons x rest ih =>
    have hcond : ¬ ((s.ZincatiID x.MachineID).2 = none ∧ id = (s.ZincatiID x.MachineID).1) := by
      rintro ⟨h2, h1⟩
      exact hno x (List.mem_cons_self x rest) (Prod.ext h1.symm h2)
    simp only [matchLoop, hcond, if_false]
    exact ih (fun n hn => hno n (List.mem_cons_of_mem x hn))

/-- The result of `matchNode` when the unfiltered list succeeds. -/
theorem matchNode_result (s : Server σ) (id : String) (w : World σ) (items : List Node)
    (hl : (s.list ⟨""⟩ w.st).1 = ListResult.ok items) :
    (matchNode s id w).1 =
      match matchLoop s id items with
      | some node => MatchResult.ok node
      | none => MatchResult.error ⟨"fleetlock: Zincati request matches no Kubernetes Nodes"⟩ := by
  unfold matchNode
  simp only [callList, logAt, hl]
  cases matchLoop s id items <;> rfl

/-- C5: when the unfiltered list succeeds with `items` and some node's identity
computation succeeds with the value `id`, `matchNode` succeeds and returns the
first such node of `items`: no node before it computes to `id`.  In particular
a node that is the only one computing to `id` is the node returned. -/
theorem matchNode_returns_first_match (s : Server σ) (id : String) (w : World σ)
    (items : List Node)
    (hl : (s.list ⟨""⟩ w.st).1 = ListResult.ok items)
    (hex : ∃ n ∈ items, s.ZincatiID n.MachineID = (id, none)) :
    (∃ pre node post, items = pre ++ node :: post ∧
      (∀ m ∈ pre, s.ZincatiID m.MachineID ≠ (id, none)) ∧
      s.ZincatiID node.MachineID = (id, none) ∧
      (matchNode s id w).1 = MatchResult.ok node) ∧
    (∀ n ∈ items, s.ZincatiID n.MachineID = (id, none) →
      (∀ m ∈ items, s.ZincatiID m.MachineID = (id, none) → m = n) →
      (matchNode s id w).1 = MatchResult.ok n) := by
  obtain ⟨pre, node, post, hsplit, hpre, hnode, hloop⟩ := matchLoop_first s id items hex
  have hres : (matchNode s id w).1 = MatchResult.ok node := by
    rw [matchNode_result s id w items hl, hloop]
  refine ⟨⟨pre, node, post, hsplit, hpre, hnode, hres⟩, ?_⟩
  intro n _ _ huniq
  have hmem : node ∈ items := by
    rw [hsplit]
    simp
  rw [hres, huniq node hmem hnode]

/-- C6: when the unfiltered list succeeds with `items` and no node's identity
computation succeeds with the value `id`, `matchNode` fails with the not-found
error.  A node whose computation returns an error is never a match, whatever
string comes beside the error, and that error is not the one returned. -/
theorem matchNode_not_found (s : Server σ) (id : String) (w : World σ)
    (items : List Node)
    (hl : (s.list ⟨""⟩ w.st).1 = ListResult.ok items)
    (hno : ∀ n ∈ items, s.ZincatiID n.MachineID ≠ (id, none)) :
    (matchNode s id w).1 =
      MatchResult.error ⟨"fleetlock: Zincati request matches no Kubernetes Nodes"⟩ := by
  rw [matchNode_result s id w items hl, matchLoop_none s id items hno]

/-! ## Failure propagation -/

/-- C7: when `matchNode` fails, with whatever error, `DrainNode` and
`UncordonNode` both return that error and stop in the world `matchNode` left:
no drain call, no uncordon call, and no list call besides the unfiltered one of
`matchNode`, whatever the parent label key. -/
theorem matchNode_failure_aborts (s : Server σ) (id : String) (w w1 : World σ) (err : Err)
    (hm : matchNode s id w = (MatchResult.error err, w1)) :
    DrainNode s id w = (some err, w1) ∧
      UncordonNode s id w = (some err, w1) ∧
      drainCalls w1.trace = drainCalls w.trace ∧
      uncordonCalls w1.trace = uncordonCalls w.trace ∧
      listCalls w1.trace = listCalls w.trace ++ [⟨""⟩] := by
  refine ⟨?_, ?_, ?_, ?_, ?_⟩
  · unfold DrainNode
    rw [hm]
  · unfold UncordonNode
    rw [hm]
  · have h := matchNode_drainCalls s id w
    rw [hm] at h
    exact h
  · have h := matchNode_uncordonCalls s id w
    rw [hm] at h
    exact h
  · have h := matchNode_listCalls s id w
    rw [hm] at h
    exact h

/-- C8: with a parent label key configured, an error from the child resolution
is the error returned and nothing follows it.  Every `DrainNode` run in which
the match succeeds and the child resolution fails returns that error in the
world the failed query left, having issued no drain call.  Separately, and under
its own premises alone, every `UncordonNode` run in which the match and the
uncordon of the matched node succeed and the child resolution fails returns that
error; after the match it has done exactly the uncordon of the matched node and
the failed label query: one uncordon call, on the matched node, no uncordon call
on a child, and no drain call that would undo it. -/
theorem child_resolution_failure_aborts (s : Server σ) (id : String)
    (hk : s.parentNodeLabel ≠ "") :
    (∀ (node : Node) (err : Err) (w w1 w2 : World σ),
      matchNode s id w = (MatchResult.ok node, w1) →
      findChildNodes s node.Name w1 = (ListResult.error err, w2) →
      DrainNode s id w = (some err, w2) ∧
        w2.trace = w1.trace ++
          [Event.list ⟨s.parentNodeLabel ++ "=" ++ node.Name⟩ (ListResult.error err)] ∧
        drainCalls (DrainNode s id w).2.trace = drainCalls w.trace) ∧
    (∀ (node : Node) (err : Err) (v v1 v2 v3 : World σ),
      matchNode s id v = (MatchResult.ok node, v1) →
      callUncordon s node.Name v1 = (none, v2) →
      findChildNodes s node.Name v2 = (ListResult.error err, v3) →
      UncordonNode s id v = (some err, v3) ∧
        v3.trace = v1.trace ++ [Event.uncordon node.Name none,
          Event.list ⟨s.parentNodeLabel ++ "=" ++ node.Name⟩ (ListResult.error err)] ∧
        uncordonCalls (UncordonNode s id v).2.trace = uncordonCalls v.trace ++ [node.Name] ∧
        drainCalls (UncordonNode s id v).2.trace = drainCalls v.trace) := by
  constructor
  · intro node err w w1 w2 hm hc
    have h1 : drainCalls w1.trace = drainCalls w.trace := by
      have h := matchNode_drainCalls s id w
      rw [hm] at h
      exact h
    have h2 : w2.trace = w1.trace ++
        [Event.list ⟨s.parentNodeLabel ++ "=" ++ node.Name⟩ (ListResult.error err)] := by
      have h := findChildNodes_eq s node.Name w1
      rw [hc] at h
      have ht := congrArg (fun r => r.2.trace) h
      have hr := congrArg (fun r => r.1) h
      simp only at ht hr
      rw [ht, ← hr]
    have h : DrainNode s id w = (some err, w2) := by
      unfold DrainNode
      rw [hm]
      simp only [hk, ne_eq, not_false_eq_true, if_true]
      rw [hc]
    rw [h]
    refine ⟨rfl, h2, ?_⟩
    simp only [h2]
    simp [drainCalls_append, drainCalls, h1]
  · intro node err v v1 v2 v3 hm hu hc
    have g1 : drainCalls v1.trace = drainCalls v.trace := by
      have h := matchNode_drainCalls s id v
      rw [hm] at h
      exact h
    have g1u : uncordonCalls v1.trace = uncordonCalls v.trace := by
      have h := matchNode_uncordonCalls s id v
      rw [hm] at h
      exact h
    have g2 : v2.trace = v1.trace ++ [Event.uncordon node.Name none] := by
      have h := congrArg (fun r => r.2.trace) hu
      have hr := congrArg (fun r => r.1) hu
      simp only [callUncordon] at h hr
      rw [← h, hr]
    have g3 : v3.trace = v2.trace ++
        [Event.list ⟨s.parentNodeLabel ++ "=" ++ node.Name⟩ (ListResult.error err)] := by
      have h := findChildNodes_eq s node.Name v2
      rw [hc] at h
      have ht := congrArg (fun r => r.2.trace) h
      have hr := congrArg (fun r => r.1) h
      simp only at ht hr
      rw [ht, ← hr]
    have h : UncordonNode s id v = (some err, v3) := by
      unfold UncordonNode
      rw [hm]
      simp only [hu, hk, ne_eq, not_false_eq_true, if_true]
      rw [hc]
    rw [h]
    refine ⟨rfl, ?_, ?_, ?_⟩
    · rw [g3, g2]
      simp
    · simp only [g3, g2]
      simp [uncordonCalls_append, uncordonCalls, g1u]
    · simp only [g3, g2]
      simp [drainCalls_append, drainCalls, g1]

/-! ## Topology disabled -/

/-- C9: with the empty parent label key, `DrainNode` is `matchNode` followed, on
a match, by the one drain call on the matched node, whose outcome (result and
world) is the outcome of `DrainNode`; `UncordonNode` likewise with the one
uncordon call.  So the only list call either makes is the unfiltered one of
`matchNode`, never a label query, and the drain (uncordon) calls issued are the
matched node alone, or none when nothing matches. -/
theorem empty_label_single_node (s : Server σ) (id : String) (w : World σ)
    (hk : s.parentNodeLabel = "") :
    (DrainNode s id w =
        match matchNode s id w with
        | (MatchResult.error err, w1) => (some err, w1)
        | (MatchResult.ok node, w1) => callDrain s node.Name w1) ∧
      (UncordonNode s id w =
        match matchNode s id w with
        | (MatchResult.error err, w1) => (some err, w1)
        | (MatchResult.ok node, w1) => callUncordon s node.Name w1) ∧
      listCalls (DrainNode s id w).2.trace = listCalls w.trace ++ [⟨""⟩] ∧
      listCalls (UncordonNode s id w).2.trace = listCalls w.trace ++ [⟨""⟩] ∧
      (drainCalls (DrainNode s id w).2.trace = drainCalls w.trace ++
        match (matchNode s id w).1 with
        | MatchResult.error _ => []
        | MatchResult.ok node => [node.Name]) ∧
      (uncordonCalls (UncordonNode s id w).2.trace = uncordonCalls w.trace ++
        match (matchNode s id w).1 with
        | MatchResult.error _ => []
        | MatchResult.ok node => [node.Name]) := by
  have hl := matchNode_listCalls s id w
  have hd := matchNode_drainCalls s id w
  have hu := matchNode_uncordonCalls s id w
  unfold DrainNode UncordonNode
  rcases hmn : matchNode s id w with ⟨r, w1⟩
  rw [hmn] at hl hd hu
  simp only at hl hd hu
  cases r with
  | error err =>
    simp [hl, hd, hu]
  | ok node =>
    simp only [hk, ne_eq, not_true_eq_false, if_false]
    refine ⟨trivial, ?_, ?_, ?_, ?_, ?_⟩
    · simp only [callUncordon]
      cases (s.Uncordon node.Name w1.st).1 <;> rfl
    · simp [callDrain, listCalls_append, listCalls, hl]
    · simp only [callUncordon]
      cases (s.Uncordon node.Name w1.st).1 <;> simp [listCalls_append, listCalls, hl]
    · simp [callDrain, drainCalls_append, drainCalls, hd]
    · simp only [callUncordon]
      cases (s.Uncordon node.Name w1.st).1 <;> simp [uncordonCalls_append, uncordonCalls, hu]

/-! ## Topology resolution -/

/-- C10: `findChildNodes` makes one list call, with the label selector
`parentNodeLabel ++ "=" ++ parentName`, and returns its outcome as it is: the
items, empty or not, or the error.  Hence, where the cluster API answers that
selector with the nodes of an inventory whose label `parentNodeLabel` has the
value `parentName`, the children returned are exactly those nodes, whatever
other labels the nodes carry. -/
theorem findChildNodes_label_query (s : Server σ) (parentName : String) (w : World σ) :
    (findChildNodes s parentName w).1 =
        (s.list ⟨s.parentNodeLabel ++ "=" ++ parentName⟩ w.st).1 ∧
      (findChildNodes s parentName w).2.trace =
        w.trace ++ [Event.list ⟨s.parentNodeLabel ++ "=" ++ parentName⟩
          (findChildNodes s parentName w).1] ∧
      listCalls (findChildNodes s parentName w).2.trace =
        listCalls w.trace ++ [⟨s.parentNodeLabel ++ "=" ++ parentName⟩] ∧
      (∀ inventory : List Node,
        (s.list ⟨s.parentNodeLabel ++ "=" ++ parentName⟩ w.st).1 =
          ListResult.ok (inventory.filter
            (fun n => n.Labels.lookup s.parentNodeLabel == some parentName)) →
        ∃ children, (findChildNodes s parentName w).1 = ListResult.ok children ∧
          ∀ n, n ∈ children ↔
            n ∈ inventory ∧ n.Labels.lookup s.parentNodeLabel = some parentName) := by
  rw [findChildNodes_eq]
  refine ⟨rfl, rfl, ?_, ?_⟩
  · simp [listCalls_append, listCalls]
  · intro inventory hapi
    refine ⟨_, hapi, ?_⟩
    intro n
    simp [List.mem_filter]

/-! ## The theorems at the worked scenarios

The request identifier `"id-m1"` matches `nodeA` (before it in the list,
`nodeE` fails the identity computation while returning the string `"id-m1"`;
after it, `nodeD` computes to `"id-m1"` as well).  Under the key `"parent"` the
children of `nodeA` are `nodeB` and `nodeC`. -/

theorem DrainNode_result_is_parent_drain_witness :
    (DrainNode (exServer exInventory ["node-c"] "parent") "id-m1" w0).1 = none ∧
      (DrainNode (exServer exInventory ["node-b", "node-a"] "parent") "id-m1" w0).1 =
        some ⟨"cannot reach node-a"⟩ := by
  constructor
  · obtain ⟨wp, _, _, _, hres, _⟩ :=
      DrainNode_result_is_parent_drain (exServer exInventory ["node-c"] "parent") "id-m1" w0 nodeA
        (matchNode (exServer exInventory ["node-c"] "parent") "id-m1" w0).2 (by decide)
        (fun _ => ⟨[nodeB, nodeC], _, rfl⟩)
    rw [hres]
    rfl
  · obtain ⟨wp, _, _, _, hres, _⟩ :=
      DrainNode_result_is_parent_drain (exServer exInventory ["node-b", "node-a"] "parent")
        "id-m1" w0 nodeA
        (matchNode (exServer exInventory ["node-b", "node-a"] "parent") "id-m1" w0).2 (by decide)
        (fun _ => ⟨[nodeB, nodeC], _, rfl⟩)
    rw [hres]
    rfl

theorem DrainNode_drains_children_then_parent_witness :
    drainCalls (DrainNode (exServer exInventory ["node-b"] "parent") "id-m1" w0).2.trace =
      ["node-b", "node-c", "node-a"] :=
  DrainNode_drains_children_then_parent (exServer exInventory ["node-b"] "parent") "id-m1" w0
    nodeA (matchNode (exServer exInventory ["node-b"] "parent") "id-m1" w0).2 [nodeB, nodeC]
    (findChildNodes (exServer exInventory ["node-b"] "parent") "node-a"
      (matchNode (exServer exInventory ["node-b"] "parent") "id-m1" w0).2).2
    (by decide) (by decide) (by decide)

theorem UncordonNode_parent_failure_witness :
    (UncordonNode (exServer exInventory ["node-a"] "parent") "id-m1" w0).1 =
        some ⟨"cannot reach node-a"⟩ ∧
      uncordonCalls (UncordonNode (exServer exInventory ["node-a"] "parent") "id-m1" w0).2.trace =
        ["node-a"] ∧
      listCalls (UncordonNode (exServer exInventory ["node-a"] "parent") "id-m1" w0).2.trace =
        [⟨""⟩] :=
  have h := UncordonNode_parent_failure (exServer exInventory ["node-a"] "parent") "id-m1" w0
    nodeA (matchNode (exServer exInventory ["node-a"] "parent") "id-m1" w0).2
    ⟨"cannot reach node-a"⟩ (by decide) (by decide)
  ⟨h.1, h.2.2.1, h.2.2.2⟩

theorem UncordonNode_parent_then_children_witness :
    ((UncordonNode (exServer exInventory ["node-b"] "parent") "id-m1" w0).1 = none ∧
      uncordonCalls (UncordonNode (exServer exInventory ["node-b"] "parent") "id-m1" w0).2.trace =
        ["node-a", "node-b", "node-c"]) ∧
      drainCalls (DrainNode (exServer exInventory ["node-b"] "parent") "id-m1" w0).2.trace =
        ["node-b", "node-c", "node-a"] ∧
      ((UncordonNode (exServerLateLabels exInventory "parent") "id-m1" w0).1 = none ∧
        uncordonCalls (UncordonNode (exServerLateLabels exInventory "parent") "id-m1" w0).2.trace =
          ["node-a", "node-b", "node-c"]) :=
  have h := UncordonNode_parent_then_children (exServer exInventory ["node-b"] "parent") "id-m1"
    (by decide)
  have g := UncordonNode_parent_then_children (exServerLateLabels exInventory "parent") "id-m1"
    (by decide)
  ⟨h.1 nodeA [nodeB, nodeC] w0
      (matchNode (exServer exInventory ["node-b"] "parent") "id-m1" w0).2
      (callUncordon (exServer exInventory ["node-b"] "parent") "node-a"
        (matchNode (exServer exInventory ["node-b"] "parent") "id-m1" w0).2).2
      (findChildNodes (exServer exInventory ["node-b"] "parent") "node-a"
        (callUncordon (exServer exInventory ["node-b"] "parent") "node-a"
          (matchNode (exServer exInventory ["node-b"] "parent") "id-m1" w0).2).2).2
      (by decide) (by decide) (by decide),
    h.2 nodeA [nodeB, nodeC] w0
      (matchNode (exServer exInventory ["node-b"] "parent") "id-m1" w0).2
      (findChildNodes (exServer exInventory ["node-b"] "parent") "node-a"
        (matchNode (exServer exInventory ["node-b"] "parent") "id-m1" w0).2).2
      (by decide) (by decide),
    g.1 nodeA [nodeB, nodeC] w0
      (matchNode (exServerLateLabels exInventory "parent") "id-m1" w0).2
      (callUncordon (exServerLateLabels exInventory "parent") "node-a"
        (matchNode (exServerLateLabels exInventory "parent") "id-m1" w0).2).2
      (findChildNodes (exServerLateLabels exInventory "parent") "node-a"
        (callUncordon (exServerLateLabels exInventory "parent") "node-a"
          (matchNode (exServerLateLabels exInventory "parent") "id-m1" w0).2).2).2
      (by decide) (by decide) (by decide)⟩

theorem matchNode_returns_first_match_witness :
    (matchNode (exServer exInventory [] "") "id-m2" w0).1 = MatchResult.ok nodeB ∧
      ∃ pre node post, exInventory = pre ++ node :: post ∧
        (∀ m ∈ pre, exZincatiID m.MachineID ≠ ("id-m1", none)) ∧
        exZincatiID node.MachineID = ("id-m1", none) ∧
        (matchNode (exServer exInventory [] "") "id-m1" w0).1 = MatchResult.ok node :=
  ⟨(matchNode_returns_first_match (exServer exInventory [] "") "id-m2" w0 exInventory rfl
      ⟨nodeB, by decide, by decide⟩).2 nodeB (by decide) (by decide) (by decide),
    (matchNode_returns_first_match (exServer exInventory [] "") "id-m1" w0 exInventory rfl
      ⟨nodeD, by decide, by decide⟩).1⟩

theorem matchNode_not_found_witness :
    (matchNode (exServer [nodeE, nodeB] [] "") "id-m1" w0).1 =
      MatchResult.error ⟨"fleetlock: Zincati request matches no Kubernetes Nodes"⟩ :=
  matchNode_not_found (exServer [nodeE, nodeB] [] "") "id-m1" w0 [nodeE, nodeB] rfl (by decide)

theorem matchNode_failure_aborts_witness :
    ((DrainNode (exServer exInventory [] "parent") "id-unknown" w0).1 =
        some ⟨"fleetlock: Zincati request matches no Kubernetes Nodes"⟩ ∧
      (UncordonNode (exServer exInventory [] "parent") "id-unknown" w0).1 =
        some ⟨"fleetlock: Zincati request matches no Kubernetes Nodes"⟩) ∧
      ((DrainNode (exServerListFail "parent") "id-m1" w0).1 = some ⟨"api unavailable"⟩ ∧
        (UncordonNode (exServerListFail "parent") "id-m1" w0).1 = some ⟨"api unavailable"⟩) :=
  have h1 := matchNode_failure_aborts (exServer exInventory [] "parent") "id-unknown" w0
    (matchNode (exServer exInventory [] "parent") "id-unknown" w0).2
    ⟨"fleetlock: Zincati request matches no Kubernetes Nodes"⟩ (by decide)
  have h2 := matchNode_failure_aborts (exServerListFail "parent") "id-m1" w0
    (matchNode (exServerListFail "parent") "id-m1" w0).2 ⟨"api unavailable"⟩ (by decide)
  ⟨⟨congrArg Prod.fst h1.1, congrArg Prod.fst h1.2.1⟩,
    ⟨congrArg Prod.fst h2.1, congrArg Prod.fst h2.2.1⟩⟩

theorem child_resolution_failure_aborts_witness :
    ((DrainNode (exServerLabelFail exInventory ["node-a"] "parent") "id-m1" w0).1 =
        some ⟨"label query failed"⟩ ∧
      drainCalls (DrainNode (exServerLabelFail exInventory ["node-a"] "parent")
        "id-m1" w0).2.trace = []) ∧
      ((UncordonNode (exServerLabelFail exInventory [] "parent") "id-m1" w0).1 =
          some ⟨"label query failed"⟩ ∧
        uncordonCalls (UncordonNode (exServerLabelFail exInventory [] "parent")
          "id-m1" w0).2.trace = ["node-a"] ∧
        drainCalls (UncordonNode (exServerLabelFail exInventory [] "parent")
          "id-m1" w0).2.trace = []) :=
  have h := (child_resolution_failure_aborts (exServerLabelFail exInventory ["node-a"] "parent")
    "id-m1" (by decide)).1 nodeA ⟨"label query failed"⟩ w0
    (matchNode (exServerLabelFail exInventory ["node-a"] "parent") "id-m1" w0).2
    (findChildNodes (exServerLabelFail exInventory ["node-a"] "parent") "node-a"
      (matchNode (exServerLabelFail exInventory ["node-a"] "parent") "id-m1" w0).2).2
    (by decide) (by decide)
  have g := (child_resolution_failure_aborts (exServerLabelFail exInventory [] "parent")
    "id-m1" (by decide)).2 nodeA ⟨"label query failed"⟩ w0
    (matchNode (exServerLabelFail exInventory [] "parent") "id-m1" w0).2
    (callUncordon (exServerLabelFail exInventory [] "parent") "node-a"
      (matchNode (exServerLabelFail exInventory [] "parent") "id-m1" w0).2).2
    (findChildNodes (exServerLabelFail exInventory [] "parent") "node-a"
      (callUncordon (exServerLabelFail exInventory [] "parent") "node-a"
        (matchNode (exServerLabelFail exInventory [] "parent") "id-m1" w0).2).2).2
    (by decide) (by decide) (by decide)
  ⟨⟨congrArg Prod.fst h.1, h.2.2⟩, ⟨congrArg Prod.fst g.1, g.2.2.1, g.2.2.2⟩⟩

theorem empty_label_single_node_witness :
    (listCalls (DrainNode (exServer exInventory ["node-a"] "") "id-m1" w0).2.trace = [⟨""⟩] ∧
      drainCalls (DrainNode (exServer exInventory ["node-a"] "") "id-m1" w0).2.trace =
        ["node-a"]) ∧
      (listCalls (UncordonNode (exServer exInventory ["node-a"] "") "id-m1" w0).2.trace =
          [⟨""⟩] ∧
        uncordonCalls (UncordonNode (exServer exInventory ["node-a"] "") "id-m1" w0).2.trace =
          ["node-a"]) :=
  have h := empty_label_single_node (exServer exInventory ["node-a"] "") "id-m1" w0 rfl
  ⟨⟨h.2.2.1, h.2.2.2.2.1⟩, ⟨h.2.2.2.1, h.2.2.2.2.2⟩⟩

theorem findChildNodes_label_query_witness :
    ∃ children,
      (findChildNodes (exServer exInventory [] "parent") "node-a" w0).1 =
        ListResult.ok children ∧
      ∀ n, n ∈ children ↔ n ∈ exInventory ∧ n.Labels.lookup "parent" = some "node-a" :=
  (findChildNodes_label_query (exServer exInventory [] "parent") "node-a" w0).2.2.2
    exInventory (by decide)

end Fleetlock
